import Mathlib

/-!
# Verification of the `expense-tracker` CLI (roadmap.sh project)

Shallow embedding of `src/main.rs`: a flat-file CRUD expense tracker.
The datastore is a JSON array of `{id, description, amount}` objects;
the domain operations are `add_expense`, `delete_expense`,
`list_expenses`, plus `init_datastore`.

Modelling conventions:
* `id : u32` is modelled as `Nat`; where u32 overflow matters the
  arithmetic is taken modulo `2^32` (the wrapping semantics of a
  release build, matching the behaviour the spec discusses).
* `amount : f64` is modelled by `F64`: a finite double is an exact
  rational, and the non-finite values (`NaN`, `±∞`) are separate
  constructors.  `serde_json` serialises a non-finite `f64` as JSON
  `null`, and deserialising `null` into `f64` is an error; the model
  reproduces this at the JSON-AST level.
* Serialisation is modelled at the level of a JSON value tree (`Json`)
  rather than byte strings: `write_expenses` produces the tree
  `serde_json::to_string` would print, `read_expenses` decodes a tree
  the way `serde`'s derived `Deserialize` does (fields looked up by
  name, `u32` must be an unsigned integer in range, `f64` must be a
  JSON number).  The encoder never emits duplicate keys, so the
  model's first-match field lookup agrees with serde on every tree the
  program writes.
* The filesystem seen by one invocation is a `World`: the datastore
  file's contents (`none` = file absent, which surfaces as an I/O
  error on read), plus a flag saying whether the underlying write
  syscall fails.  `panic!` is modelled as an explicit `Output.panicked`
  outcome; the process performs no further action after it.
-/

/-- A 64-bit float as stored in an expense's `amount` field: either an
exact finite value (every finite double is a rational) or one of the
non-finite values. -/
inductive F64 where
  | finite (q : ℚ)
  | nan
  | inf
  | neginf
deriving DecidableEq, Repr

/-- Finiteness test: `F64.isFinite` is true on `finite q`. -/
def F64.isFinite : F64 → Bool
  | .finite _ => true
  | _ => false

/-- The `Expense` struct of `main.rs`: `id: u32, description: String,
amount: f64`.  The id is a `Nat`; u32-validity (`id < 2^32`) is carried
as a hypothesis where it matters. -/
structure Expense where
  id : Nat
  description : String
  amount : F64
deriving DecidableEq, Repr

/-- A JSON value tree, the intermediate form of `serde_json`. -/
inductive Json where
  | null
  | str (s : String)
  | num (q : ℚ)
  | arr (elems : List Json)
  | obj (fields : List (String × Json))

/-- Number encoding: `serde_json` serialises a finite `f64` as a JSON number and a
non-finite one (`NaN`, `±∞`) as JSON `null`. -/
def encodeF64 : F64 → Json
  | .finite q => .num q
  | _ => .null

/-- The derived `Serialize` for `Expense`: an object with the three
fields in declaration order. -/
def encodeExpense (e : Expense) : Json :=
  .obj [("id", .num (e.id : ℚ)),
        ("description", .str e.description),
        ("amount", encodeF64 e.amount)]

/-- Function `write_expenses` (`main.rs:66-70`): encode the full sequence as a
JSON array and overwrite the file with it.  Modelled as producing the
JSON tree that is written. -/
def write_expenses (es : List Expense) : Json :=
  .arr (es.map encodeExpense)

/-- Deserialising a `u32`: the JSON value must be a number that is an
unsigned integer below `2^32`. -/
def decodeU32 : Json → Option Nat
  | .num q =>
      if q.den = 1 ∧ 0 ≤ q.num ∧ q.num < 2 ^ 32 then some q.num.toNat else none
  | _ => none

/-- Deserialising an `f64`: any JSON number is accepted (JSON itself
cannot express `NaN`/`±∞`, and `null` is a type error). -/
def decodeF64 : Json → Option F64
  | .num q => some (.finite q)
  | _ => none

/-- Deserialising a `String`. -/
def decodeString : Json → Option String
  | .str s => some s
  | _ => none

/-- The derived `Deserialize` for `Expense`: the value must be an
object; each field is looked up by name and decoded at its type.
(serde additionally rejects duplicate keys; the encoder never produces
them, so first-match lookup agrees with serde on every written tree.) -/
def decodeExpense : Json → Option Expense
  | .obj fields => do
      let i ← decodeU32 (← fields.lookup "id")
      let d ← decodeString (← fields.lookup "description")
      let a ← decodeF64 (← fields.lookup "amount")
      pure ⟨i, d, a⟩
  | _ => none

/-- Function `read_expenses` (`main.rs:60-64`): decode the file's contents as a
`Vec<Expense>`.  `none` models the `Err` case (decode failure). -/
def read_expenses (j : Json) : Option (List Expense) :=
  match j with
  | .arr elems => elems.mapM decodeExpense
  | _ => none

/-- The maximum id in the store, or `0` when empty:
`expenses.iter().map(|e| e.id).max().unwrap_or(0)` (`main.rs:80`). -/
def maxId (es : List Expense) : Nat :=
  es.foldr (fun e m => max e.id m) 0

/-- The id assigned to the next expense: `max + 1` in u32 arithmetic
(`main.rs:80`), i.e. wrapping modulo `2^32`. -/
def nextId (es : List Expense) : Nat :=
  (maxId es + 1) % 2 ^ 32

/-- The pure core of `add_expense` (`main.rs:72-94`): construct the new
expense with `nextId` and push it at the end of the vector. -/
def add_expense (description : String) (amount : F64) (es : List Expense) :
    List Expense :=
  es ++ [⟨nextId es, description, amount⟩]

/-- The pure core of `delete_expense` (`main.rs:106`):
`expenses.retain(|expense| expense.id != id)`. -/
def delete_core (id : Nat) (es : List Expense) : List Expense :=
  es.filter (fun e => e.id != id)

/-! ## Formatting

`list_expenses` renders each amount with `format!("{:.2}", amount)`
(`main.rs:142`).  Rust formats a finite double by rounding its exact
decimal expansion to the requested number of digits with ties going to
the even digit; a finite double is an exact rational, so this is
`roundTE (100 * |q|)` scaled back down.  Non-finite values print as
`NaN` / `inf` / `-inf` and are unreachable here because every decoded
amount is finite. -/

/-- Round a rational to the nearest integer, ties to even. -/
def roundTE (x : ℚ) : ℤ :=
  let f := ⌊x⌋
  if x - f < 1 / 2 then f
  else if 1 / 2 < x - f then f + 1
  else if Even f then f else f + 1

/-- Rendering of `format!` with precision 2 on a finite double `q`: optional sign,
the integer part, a point, and exactly two decimal digits. -/
def fmtFixed2 (q : ℚ) : String :=
  let m : ℕ := (roundTE (|q| * 100)).toNat
  (if q < 0 then "-" else "") ++ toString (m / 100) ++ "." ++
    String.mk [Nat.digitChar (m / 10 % 10), Nat.digitChar (m % 10)]

/-- Rendering of `format!("{:.2}", amount)` on any `f64`. -/
def fmt2 : F64 → String
  | .finite q => fmtFixed2 q
  | .nan => "NaN"
  | .inf => "inf"
  | .neginf => "-inf"

/-! ## The filesystem world and the four operations -/

/-- What one invocation prints and how it ends: a `panic!` with a
diagnostic (abnormal termination, nonzero exit), a normal message, or
the rendered table (normal termination, exit 0).  Note: where the
source wraps an interpolated value in single quotes the model omits
the quotes; no claim depends on that punctuation. -/
inductive Output where
  | panicked (msg : String)
  | message (s : String)
  | table (rows : List (List String))
deriving DecidableEq

/-- The state an invocation sees: the datastore file's contents
(`none` = the file is absent, so reading it is an I/O error) and
whether the underlying write syscall fails. -/
structure World where
  file : Option Json
  wErr : Bool

/-- Reading at the filesystem level: an absent file is an I/O
error, undecodable contents are a decode error. -/
def readW (w : World) : Except String (List Expense) :=
  match w.file with
  | none => .error "os error 2"
  | some j =>
      match read_expenses j with
      | none => .error "invalid JSON"
      | some es => .ok es

/-- Writing at the filesystem level: overwrite the whole file
with the encoded sequence, or fail without being caught. -/
def writeW (w : World) (es : List Expense) : Except String World :=
  if w.wErr then .error "os error"
  else .ok { w with file := some (write_expenses es) }

/-- Function `init_datastore` (`main.rs:48-58`): if the file does not exist,
create it and write the literal `[]`; otherwise report that the
existing datastore is used and touch nothing.  `main` panics when the
creation fails. -/
def init_datastore (w : World) : World × Output :=
  match w.file with
  | some _ => (w, .message "Reading from datastore at datastore.json")
  | none =>
      if w.wErr then (w, .panicked "Failed to initialize datastore: os error")
      else ({ w with file := some (.arr []) },
            .message "Datastore initialized at datastore.json")

/-- Function `add_expense` (`main.rs:72-94`) as a whole: read (panic on
failure), append the new expense, write back (panic on failure),
report the assigned id. -/
def add_expense_op (d : String) (a : F64) (w : World) : World × Output :=
  match readW w with
  | .error e => (w, .panicked ("Failed to read from datastore: " ++ e))
  | .ok es =>
      match writeW w (add_expense d a es) with
      | .error e => (w, .panicked ("Failed to write to datastore: " ++ e))
      | .ok w2 =>
          (w2, .message ("Expense added successfully with ID: " ++
                         toString (nextId es)))

/-- Function `delete_expense` (`main.rs:96-118`) as a whole: read (panic on
failure), retain the non-matching records; if the length is unchanged
report not-found and perform no write, otherwise write back (panic on
failure) and report success. -/
def delete_expense_op (i : Nat) (w : World) : World × Output :=
  match readW w with
  | .error e => (w, .panicked ("Failed to read from datastore: " ++ e))
  | .ok es =>
      let kept := delete_core i es
      if kept.length = es.length then
        (w, .message ("No expense found with ID: " ++ toString i))
      else
        match writeW w kept with
        | .error e => (w, .panicked ("Failed to write to datastore: " ++ e))
        | .ok w2 =>
            (w2, .message ("Expense with ID: " ++ toString i ++
                           " deleted successfully"))

/-- Function `list_expenses` (`main.rs:120-146`) as a whole: read (panic on
failure); on an empty store print `No expenses found`; otherwise build
the table whose first row is the header and which has one row per
expense, in order, the amount formatted with two decimals.  No write
is ever performed. -/
def list_expenses_op (w : World) : World × Output :=
  match readW w with
  | .error e => (w, .panicked ("Failed to read from datastore: " ++ e))
  | .ok es =>
      if es.isEmpty then (w, .message "No expenses found")
      else
        (w, .table (["ID", "Description", "Amount"] ::
          es.map (fun e => [toString e.id, e.description, fmt2 e.amount])))

/-! ## Operation sequences

For the temporal claims: a trace of store-level operations, the store
it produces, and the ids handed out along the way. -/

/-- One store-level mutating operation. -/
inductive Op where
  | addOp (d : String) (a : F64)
  | delOp (i : Nat)

/-- Run a sequence of operations on a store. -/
def runOps (es : List Expense) : List Op → List Expense
  | [] => es
  | .addOp d a :: ops => runOps (add_expense d a es) ops
  | .delOp i :: ops => runOps (delete_core i es) ops

/-- The ids assigned by the adds of a trace, in order. -/
def assignedIds (es : List Expense) : List Op → List Nat
  | [] => []
  | .addOp d a :: ops => nextId es :: assignedIds (add_expense d a es) ops
  | .delOp i :: ops => assignedIds (delete_core i es) ops

/- The Batteries `Rat` arithmetic is `@[irreducible]`; re-allow
unfolding so that concrete rational computations can be settled by
`decide`. -/
attribute [local semireducible] Rat.mul Rat.add Rat.sub Rat.inv Rat.ofScientific

example : fmtFixed2 (19 / 2) = "9.50" := by decide
example : fmtFixed2 0 = "0.00" := by decide
example : fmtFixed2 (-3 / 2 / 1000) = "-0.00" := by decide
example : fmtFixed2 (125 / 1000) = "0.12" := by decide
example : nextId [] = 1 := by decide
example : nextId [⟨4294967295, "x", .finite 0⟩] = 0 := by decide
example : read_expenses (write_expenses [⟨1, "a", .finite (7 / 2)⟩]) =
    some [⟨1, "a", .finite (7 / 2)⟩] := by decide
example : read_expenses (write_expenses [⟨1, "a", .nan⟩]) = none := by decide

/-! ## Lemmas about `maxId` and `nextId` -/

theorem maxId_nil : maxId [] = 0 := rfl

theorem maxId_cons (x : Expense) (xs : List Expense) :
    maxId (x :: xs) = max x.id (maxId xs) := rfl

theorem le_maxId (es : List Expense) : ∀ e ∈ es, e.id ≤ maxId es := by
  induction es with
  | nil => intro e he; exact absurd he (List.not_mem_nil e)
  | cons x xs ih =>
    intro e he
    rw [maxId_cons]
    rcases List.mem_cons.mp he with h | h
    · subst h; exact le_max_left _ _
    · exact le_trans (ih e h) (le_max_right _ _)

theorem maxId_le (es : List Expense) (m : Nat) (h : ∀ e ∈ es, e.id ≤ m) :
    maxId es ≤ m := by
  induction es with
  | nil => exact Nat.zero_le m
  | cons x xs ih =>
    rw [maxId_cons]
    exact max_le (h x (List.mem_cons_self x xs))
      (ih fun e he => h e (List.mem_cons_of_mem x he))

theorem maxId_mem (es : List Expense) (h : es ≠ []) :
    maxId es ∈ es.map Expense.id := by
  induction es with
  | nil => exact absurd rfl h
  | cons x xs ih =>
    rw [maxId_cons]
    rcases Nat.le_total (maxId xs) x.id with hle | hle
    · rw [max_eq_left hle]
      exact List.mem_map_of_mem Expense.id (List.mem_cons_self x xs)
    · rw [max_eq_right hle]
      cases xs with
      | nil => rw [maxId_nil, Nat.le_zero] at hle; rw [maxId_nil, ← hle]
               exact List.mem_map_of_mem Expense.id (List.mem_cons_self x [])
      | cons y ys =>
        exact List.mem_cons_of_mem _ (ih (List.cons_ne_nil y ys))

theorem nextId_eq (es : List Expense) (h : maxId es + 1 < 2 ^ 32) :
    nextId es = maxId es + 1 :=
  Nat.mod_eq_of_lt h

theorem lt_nextId (es : List Expense) (h : maxId es + 1 < 2 ^ 32) :
    ∀ e ∈ es, e.id < nextId es := by
  intro e he
  rw [nextId_eq es h]
  exact Nat.lt_succ_of_le (le_maxId es e he)

theorem nextId_not_mem (es : List Expense) (h : maxId es + 1 < 2 ^ 32) :
    nextId es ∉ es.map Expense.id := by
  intro hmem
  rcases List.mem_map.mp hmem with ⟨e, he, hid⟩
  exact absurd hid (Nat.ne_of_lt (lt_nextId es h e he))

/-! ## Lemmas about `add_expense` and `delete_core` -/

theorem add_expense_map_id (d : String) (a : F64) (es : List Expense) :
    (add_expense d a es).map Expense.id = es.map Expense.id ++ [nextId es] := by
  simp [add_expense]

theorem add_expense_nodup (d : String) (a : F64) (es : List Expense)
    (hnd : (es.map Expense.id).Nodup) (h : maxId es + 1 < 2 ^ 32) :
    ((add_expense d a es).map Expense.id).Nodup := by
  rw [add_expense_map_id]
  rw [List.nodup_append]
  refine ⟨hnd, List.nodup_singleton _, ?_⟩
  intro i hi hj
  rcases List.mem_singleton.mp hj with rfl
  exact nextId_not_mem es h hi

theorem delete_core_of_not_mem (i : Nat) (es : List Expense)
    (h : i ∉ es.map Expense.id) : delete_core i es = es := by
  apply List.filter_eq_self.mpr
  intro a ha
  simp only [bne_iff_ne, ne_eq]
  intro hai
  exact h (List.mem_map.mpr ⟨a, ha, hai⟩)

theorem delete_core_append (i : Nat) (l r : List Expense) (e : Expense)
    (he : e.id = i) (hl : i ∉ l.map Expense.id) (hr : i ∉ r.map Expense.id) :
    delete_core i (l ++ e :: r) = l ++ r := by
  have h1 : delete_core i l = l := delete_core_of_not_mem i l hl
  have h2 : delete_core i r = r := delete_core_of_not_mem i r hr
  unfold delete_core at h1 h2 ⊢
  rw [List.filter_append, List.filter_cons, h1, h2]
  simp [he]

theorem delete_core_sublist (i : Nat) (es : List Expense) :
    List.Sublist (delete_core i es) es :=
  List.filter_sublist es

theorem delete_core_nodup (i : Nat) (es : List Expense)
    (h : (es.map Expense.id).Nodup) :
    ((delete_core i es).map Expense.id).Nodup :=
  List.Nodup.sublist (List.Sublist.map Expense.id (delete_core_sublist i es)) h

theorem delete_core_length_lt (i : Nat) (es : List Expense)
    (h : i ∈ es.map Expense.id) :
    (delete_core i es).length < es.length := by
  rcases List.mem_map.mp h with ⟨e, he, hid⟩
  exact List.length_filter_lt_length_iff_exists.mpr ⟨e, he, by simp [hid]⟩

/-! ## Lemmas about encoding and decoding -/

theorem decodeF64_isFinite (j : Json) (a : F64) (h : decodeF64 j = some a) :
    a.isFinite = true := by
  cases j with
  | num q =>
    simp only [decodeF64, Option.some.injEq] at h
    rw [← h]
    rfl
  | null => simp [decodeF64] at h
  | str s => simp [decodeF64] at h
  | arr xs => simp [decodeF64] at h
  | obj fs => simp [decodeF64] at h

theorem decodeExpense_encodeExpense (e : Expense) (hid : e.id < 2 ^ 32)
    (ha : e.amount.isFinite = true) :
    decodeExpense (encodeExpense e) = some e := by
  obtain ⟨i, d, a⟩ := e
  cases a with
  | finite q =>
    have h1 : ((i : ℚ)).den = 1 := Rat.den_natCast i
    have h2 : ((i : ℚ)).num = (i : ℤ) := Rat.num_natCast i
    have h3 : (i : ℤ) < 2 ^ 32 := by exact_mod_cast hid
    simp [decodeExpense, encodeExpense, encodeF64, List.lookup, decodeU32,
          decodeString, decodeF64, h1, h2, h3, Int.toNat_natCast]
    rw [if_pos (show i < 4294967296 by simpa using hid)]
    rfl
  | nan => simp [F64.isFinite] at ha
  | inf => simp [F64.isFinite] at ha
  | neginf => simp [F64.isFinite] at ha

theorem read_write_expenses (es : List Expense)
    (h : ∀ e ∈ es, e.id < 2 ^ 32 ∧ e.amount.isFinite = true) :
    read_expenses (write_expenses es) = some es := by
  induction es with
  | nil => rfl
  | cons x xs ih =>
    have hx := h x (List.mem_cons_self x xs)
    have ihx := ih fun e he => h e (List.mem_cons_of_mem x he)
    simp only [read_expenses, write_expenses, List.map_cons, List.mapM_cons] at ihx ⊢
    rw [decodeExpense_encodeExpense x hx.1 hx.2]
    simp only [Option.pure_def, Option.bind_eq_bind, Option.some_bind] at ihx ⊢
    rw [ihx]
    rfl

theorem mapM_eq_some_mem {α β : Type} (f : α → Option β) :
    ∀ (xs : List α) (ys : List β), xs.mapM f = some ys →
      ∀ y ∈ ys, ∃ x ∈ xs, f x = some y := by
  intro xs
  induction xs with
  | nil =>
    intro ys h y hy
    simp only [List.mapM_nil, Option.pure_def, Option.some.injEq] at h
    subst h
    exact absurd hy (List.not_mem_nil y)
  | cons x xs ih =>
    intro ys h y hy
    rw [List.mapM_cons] at h
    cases hfx : f x with
    | none => rw [hfx] at h; simp at h
    | some b =>
      rw [hfx] at h
      cases hms : xs.mapM f with
      | none => rw [hms] at h; simp at h
      | some bs =>
        rw [hms] at h
        simp only [Option.pure_def, Option.bind_eq_bind, Option.some_bind,
          Option.some.injEq] at h
        subst h
        rcases List.mem_cons.mp hy with rfl | hy2
        · exact ⟨x, List.mem_cons_self x xs, hfx⟩
        · rcases ih bs hms y hy2 with ⟨x2, hx2, hfx2⟩
          exact ⟨x2, List.mem_cons_of_mem x hx2, hfx2⟩

theorem decodeExpense_amount_isFinite (j : Json) (e : Expense)
    (h : decodeExpense j = some e) : e.amount.isFinite = true := by
  cases j with
  | obj fields =>
    simp only [decodeExpense, Option.bind_eq_bind, Option.bind_eq_some,
      Option.pure_def, Option.some.injEq] at h
    rcases h with ⟨j1, hj1, i, hi, j2, hj2, d, hd, j3, hj3, a, hA, he⟩
    rw [← he]
    exact decodeF64_isFinite j3 a hA
  | null => simp [decodeExpense] at h
  | str s => simp [decodeExpense] at h
  | num q => simp [decodeExpense] at h
  | arr xs => simp [decodeExpense] at h

theorem read_expenses_amounts_finite (j : Json) (es : List Expense)
    (h : read_expenses j = some es) : ∀ e ∈ es, e.amount.isFinite = true := by
  cases j with
  | arr elems =>
    intro e he
    simp only [read_expenses] at h
    rcases mapM_eq_some_mem decodeExpense elems es h e he with ⟨x, hx, hdx⟩
    exact decodeExpense_amount_isFinite x e hdx
  | null => simp [read_expenses] at h
  | str s => simp [read_expenses] at h
  | num q => simp [read_expenses] at h
  | obj fs => simp [read_expenses] at h

theorem readW_eq_ok (w : World) (es : List Expense) (h : readW w = .ok es) :
    ∃ j, w.file = some j ∧ read_expenses j = some es := by
  obtain ⟨file, werr⟩ := w
  cases file with
  | none => simp [readW] at h
  | some j =>
    cases hr : read_expenses j with
    | none => simp [readW, hr] at h
    | some es2 =>
      simp only [readW, hr] at h
      cases h
      exact ⟨j, rfl, hr⟩

theorem readW_amounts_finite (w : World) (es : List Expense)
    (h : readW w = .ok es) : ∀ e ∈ es, e.amount.isFinite = true := by
  rcases readW_eq_ok w es h with ⟨j, _, hr⟩
  exact read_expenses_amounts_finite j es hr

/-- Shape of `fmtFixed2`: a sign-plus-integer part, a decimal point,
and exactly two decimal digits. -/
theorem fmtFixed2_shape (q : ℚ) :
    ∃ s : String, ∃ d1 d2 : Nat, d1 < 10 ∧ d2 < 10 ∧
      fmtFixed2 q = s ++ "." ++ String.mk [Nat.digitChar d1, Nat.digitChar d2] ∧
      (String.mk [Nat.digitChar d1, Nat.digitChar d2]).length = 2 :=
  ⟨(if q < 0 then "-" else "") ++ toString ((roundTE (|q| * 100)).toNat / 100),
   (roundTE (|q| * 100)).toNat / 10 % 10, (roundTE (|q| * 100)).toNat % 10,
   Nat.mod_lt _ (by norm_num), Nat.mod_lt _ (by norm_num), rfl, rfl⟩

/-! ## The claims -/

/-- C1 (amended): the add operation appends a record carrying the
supplied description and amount after all existing records; on an
empty store its id is `1`, and on a store with maximum id `m` its id
is `m + 1`, provided `m + 1` does not overflow u32. -/
theorem C1_add_assigns_max_plus_one :
    (∀ (d : String) (a : F64), add_expense d a [] = [⟨1, d, a⟩]) ∧
    (∀ (es : List Expense) (d : String) (a : F64) (m : Nat),
      m ∈ es.map Expense.id → (∀ e ∈ es, e.id ≤ m) → m + 1 < 2 ^ 32 →
      add_expense d a es = es ++ [⟨m + 1, d, a⟩]) := by
  constructor
  · intro d a; rfl
  · intro es d a m hm hub hov
    have h1 : maxId es ≤ m := maxId_le es m hub
    have h2 : m ≤ maxId es := by
      rcases List.mem_map.mp hm with ⟨e, he, hid⟩
      rw [← hid]
      exact le_maxId es e he
    have hmax : maxId es = m := le_antisymm h1 h2
    unfold add_expense
    rw [nextId_eq es (by rw [hmax]; exact hov), hmax]

/-- C1 witness: concrete instances of both conjuncts. -/
theorem C1_add_witness :
    add_expense "Coffee" (.finite (7 / 2)) [] = [⟨1, "Coffee", .finite (7 / 2)⟩] ∧
    add_expense "Book" (.finite 12) [⟨1, "a", .finite 1⟩, ⟨2, "b", .finite 2⟩] =
      [⟨1, "a", .finite 1⟩, ⟨2, "b", .finite 2⟩, ⟨3, "Book", .finite 12⟩] :=
  ⟨C1_add_assigns_max_plus_one.1 "Coffee" (.finite (7 / 2)),
   C1_add_assigns_max_plus_one.2 _ "Book" (.finite 12) 2
     (by decide) (by decide) (by decide)⟩

/-- C1 counterexample: on the store whose maximum id is `2^32 - 1` the
u32 addition wraps, so the new record gets id `0`, not `max + 1`. -/
theorem C1_add_counterexample :
    add_expense "y" (.finite 0) [⟨4294967295, "x", .finite 0⟩] =
      [⟨4294967295, "x", .finite 0⟩, ⟨0, "y", .finite 0⟩] ∧
    add_expense "y" (.finite 0) [⟨4294967295, "x", .finite 0⟩] ≠
      [⟨4294967295, "x", .finite 0⟩, ⟨4294967296, "y", .finite 0⟩] := by
  decide

/-- C2 (amended): distinctness of ids is preserved by `delete`
unconditionally, and by `add` provided the current maximum id is below
`2^32 - 1` (so that the u32 increment does not wrap). -/
theorem C2_ids_distinct_preserved :
    (∀ (es : List Expense) (d : String) (a : F64),
      (es.map Expense.id).Nodup → maxId es + 1 < 2 ^ 32 →
      ((add_expense d a es).map Expense.id).Nodup) ∧
    (∀ (es : List Expense) (i : Nat),
      (es.map Expense.id).Nodup →
      ((delete_core i es).map Expense.id).Nodup) :=
  ⟨fun es d a hnd hov => add_expense_nodup d a es hnd hov,
   fun es i hnd => delete_core_nodup i es hnd⟩

/-- C2 witness: concrete instances of both conjuncts. -/
theorem C2_ids_distinct_witness :
    ((add_expense "b" (.finite 2) [⟨1, "a", .finite 1⟩]).map Expense.id).Nodup ∧
    ((delete_core 1 [⟨1, "a", .finite 1⟩, ⟨2, "b", .finite 2⟩]).map Expense.id).Nodup :=
  ⟨C2_ids_distinct_preserved.1 [⟨1, "a", .finite 1⟩] "b" (.finite 2)
     (by decide) (by decide),
   C2_ids_distinct_preserved.2 [⟨1, "a", .finite 1⟩, ⟨2, "b", .finite 2⟩] 1
     (by decide)⟩

/-- C2 counterexample: from the distinct-id store with ids
`{0, 2^32 - 1}` a single add wraps to id `0` and creates a duplicate. -/
theorem C2_ids_distinct_counterexample :
    (([⟨0, "a", .finite 0⟩, ⟨4294967295, "b", .finite 0⟩] : List Expense).map
      Expense.id).Nodup ∧
    ¬ ((add_expense "c" (.finite 0)
        [⟨0, "a", .finite 0⟩, ⟨4294967295, "b", .finite 0⟩]).map
      Expense.id).Nodup := by
  decide

/-- C3: deleting a present id removes exactly the matching record,
leaving the others unchanged and in order and shrinking the count by
exactly one; deleting an absent id leaves the datastore file unchanged
(no write is performed) and reports not-found. -/
theorem C3_delete_correct :
    (∀ (i : Nat) (l r : List Expense) (e : Expense),
      e.id = i → i ∉ l.map Expense.id → i ∉ r.map Expense.id →
      delete_core i (l ++ e :: r) = l ++ r ∧
      (delete_core i (l ++ e :: r)).length + 1 = (l ++ e :: r).length) ∧
    (∀ (i : Nat) (w : World) (es : List Expense),
      readW w = .ok es → i ∉ es.map Expense.id →
      delete_expense_op i w =
        (w, .message ("No expense found with ID: " ++ toString i))) := by
  constructor
  · intro i l r e he hl hr
    have heq := delete_core_append i l r e he hl hr
    refine ⟨heq, ?_⟩
    rw [heq]
    simp [List.length_append]
    omega
  · intro i w es hr hnm
    have hk : delete_core i es = es := delete_core_of_not_mem i es hnm
    simp [delete_expense_op, hr, hk]

/-- C3 witness: concrete instances of both conjuncts. -/
theorem C3_delete_witness :
    delete_core 2 [⟨1, "a", .finite 1⟩, ⟨2, "b", .finite 2⟩, ⟨3, "c", .finite 3⟩] =
      [⟨1, "a", .finite 1⟩, ⟨3, "c", .finite 3⟩] ∧
    (delete_core 2 [⟨1, "a", .finite 1⟩, ⟨2, "b", .finite 2⟩, ⟨3, "c", .finite 3⟩]).length + 1 =
      ([⟨1, "a", .finite 1⟩, ⟨2, "b", .finite 2⟩, ⟨3, "c", .finite 3⟩] : List Expense).length ∧
    delete_expense_op 5 { file := some (write_expenses [⟨1, "a", .finite 1⟩]), wErr := false } =
      ({ file := some (write_expenses [⟨1, "a", .finite 1⟩]), wErr := false },
       .message ("No expense found with ID: " ++ toString 5)) := by
  have h1 := C3_delete_correct.1 2 [⟨1, "a", .finite 1⟩] [⟨3, "c", .finite 3⟩]
    ⟨2, "b", .finite 2⟩ (by decide) (by decide) (by decide)
  have h2 := C3_delete_correct.2 5
    { file := some (write_expenses [⟨1, "a", .finite 1⟩]), wErr := false }
    [⟨1, "a", .finite 1⟩] (by rfl) (by decide)
  exact ⟨h1.1, h1.2, h2⟩

/-- C4 (amended): writing a sequence of expenses and reading it back
yields the same sequence, for every sequence of representable records
(u32 ids) whose amounts are finite doubles. -/
theorem C4_write_read_roundtrip (es : List Expense)
    (h : ∀ e ∈ es, e.id < 2 ^ 32 ∧ e.amount.isFinite = true) :
    read_expenses (write_expenses es) = some es :=
  read_write_expenses es h

/-- C4 witness: round trip of a concrete two-record sequence. -/
theorem C4_write_read_witness :
    read_expenses (write_expenses
      [⟨1, "Coffee", .finite (7 / 2)⟩, ⟨2, "Book", .finite 12⟩]) =
      some [⟨1, "Coffee", .finite (7 / 2)⟩, ⟨2, "Book", .finite 12⟩] :=
  C4_write_read_roundtrip _ (by decide)

/-- C4 counterexample: a `NaN` amount is serialised as JSON `null`,
which fails to deserialise as `f64`, so the round trip of this
one-record sequence loses it entirely. -/
theorem C4_write_read_counterexample :
    read_expenses (write_expenses [⟨1, "x", F64.nan⟩]) = none ∧
    read_expenses (write_expenses [⟨1, "x", F64.nan⟩]) ≠
      some [⟨1, "x", F64.nan⟩] := by
  decide

/-- C5 (amended): an add never reassigns an id that is still present,
and in fact assigns an id strictly greater than every stored id
(absent u32 overflow); only ids at or below the current maximum are
protected, so a deleted id above the surviving maximum can be handed
out again. -/
theorem C5_no_reuse_below_max (es : List Expense)
    (h : maxId es + 1 < 2 ^ 32) :
    (∀ e ∈ es, e.id < nextId es) ∧ nextId es ∉ es.map Expense.id :=
  ⟨lt_nextId es h, nextId_not_mem es h⟩

/-- C5 witness: concrete instance. -/
theorem C5_no_reuse_witness :
    (∀ e ∈ ([⟨2, "a", .finite 1⟩] : List Expense),
      e.id < nextId [⟨2, "a", .finite 1⟩]) ∧
    nextId [⟨2, "a", .finite 1⟩] ∉
      ([⟨2, "a", .finite 1⟩] : List Expense).map Expense.id :=
  C5_no_reuse_below_max _ (by decide)

/-- C5 counterexample: a reachable trace from the empty store in which
id `1` is assigned, the record with id `1` is deleted, and a later add
assigns id `1` again — a deleted id is reused. -/
theorem C5_no_reuse_counterexample :
    assignedIds [] [.addOp "a" (.finite 1), .delOp 1, .addOp "b" (.finite 2)] =
      [1, 1] ∧
    runOps [] [.addOp "a" (.finite 1)] = [⟨1, "a", .finite 1⟩] ∧
    runOps [] [.addOp "a" (.finite 1), .delOp 1] = [] := by
  decide

/-- C6: initialization is idempotent: on an existing file it never
alters the contents, and two consecutive runs leave the filesystem
exactly where one run left it. -/
theorem C6_init_idempotent :
    (∀ (c : Json) (b : Bool),
      (init_datastore { file := some c, wErr := b }).1 =
        { file := some c, wErr := b } ∧
      (init_datastore { file := some c, wErr := b }).1.file = some c) ∧
    ((init_datastore { file := none, wErr := false }).1.file =
      some (.arr [])) ∧
    (∀ w : World,
      (init_datastore (init_datastore w).1).1 = (init_datastore w).1) := by
  refine ⟨?_, rfl, ?_⟩
  · intro c b; exact ⟨rfl, rfl⟩
  · intro w
    obtain ⟨file, b⟩ := w
    cases file with
    | some c => rfl
    | none =>
      cases b with
      | true => rfl
      | false => rfl

/-- C7: on an empty store the list operation reports
`No expenses found` and stops; otherwise it renders the header row
`ID / Description / Amount` followed by one row per expense in stored
order, and every amount cell is rendered with a decimal point followed
by exactly two decimal digits. -/
theorem C7_list_rendering (w : World) (es : List Expense)
    (h : readW w = .ok es) :
    (es = [] → list_expenses_op w = (w, .message "No expenses found")) ∧
    (es ≠ [] → list_expenses_op w =
      (w, .table (["ID", "Description", "Amount"] ::
        es.map fun e => [toString e.id, e.description, fmt2 e.amount]))) ∧
    (∀ e ∈ es, ∃ s : String, ∃ d1 d2 : Nat, d1 < 10 ∧ d2 < 10 ∧
      fmt2 e.amount = s ++ "." ++ String.mk [Nat.digitChar d1, Nat.digitChar d2] ∧
      (String.mk [Nat.digitChar d1, Nat.digitChar d2]).length = 2) := by
  refine ⟨?_, ?_, ?_⟩
  · rintro rfl
    simp [list_expenses_op, h]
  · intro hne
    cases es with
    | nil => exact absurd rfl hne
    | cons x xs => simp [list_expenses_op, h]
  · intro e he
    have hfin := readW_amounts_finite w es h e he
    cases ham : e.amount with
    | finite q => exact fmtFixed2_shape q
    | nan => rw [ham] at hfin; exact Bool.noConfusion hfin
    | inf => rw [ham] at hfin; exact Bool.noConfusion hfin
    | neginf => rw [ham] at hfin; exact Bool.noConfusion hfin

/-- C7 witness: a one-expense store with amount `9.5` renders as a
table whose data row shows `9.50`. -/
theorem C7_list_witness :
    (list_expenses_op
      { file := some (write_expenses [⟨1, "Coffee", .finite (19 / 2)⟩]),
        wErr := false }).2 =
      .table [["ID", "Description", "Amount"], ["1", "Coffee", "9.50"]] := by
  have h := (C7_list_rendering
    { file := some (write_expenses [⟨1, "Coffee", .finite (19 / 2)⟩]),
      wErr := false }
    [⟨1, "Coffee", .finite (19 / 2)⟩] (by rfl)).2.1 (by decide)
  rw [h]
  decide

/-- C8: a read failure (I/O or decode) makes every domain operation
panic with a diagnostic, leaving the datastore untouched, and a write
failure makes add and delete panic likewise; the delete-target-absent
and empty-list conditions are instead reported as normal messages
(exit 0), the former without any write. -/
theorem C8_error_propagation :
    (∀ (w : World) (msg d : String) (a : F64) (i : Nat),
      readW w = .error msg →
      add_expense_op d a w =
        (w, .panicked ("Failed to read from datastore: " ++ msg)) ∧
      delete_expense_op i w =
        (w, .panicked ("Failed to read from datastore: " ++ msg)) ∧
      list_expenses_op w =
        (w, .panicked ("Failed to read from datastore: " ++ msg))) ∧
    (∀ (w : World) (es : List Expense) (d : String) (a : F64),
      readW w = .ok es → w.wErr = true →
      add_expense_op d a w =
        (w, .panicked ("Failed to write to datastore: " ++ "os error"))) ∧
    (∀ (w : World) (es : List Expense) (i : Nat),
      readW w = .ok es → w.wErr = true → i ∈ es.map Expense.id →
      delete_expense_op i w =
        (w, .panicked ("Failed to write to datastore: " ++ "os error"))) ∧
    (∀ (w : World) (es : List Expense) (i : Nat),
      readW w = .ok es → i ∉ es.map Expense.id →
      delete_expense_op i w =
        (w, .message ("No expense found with ID: " ++ toString i))) ∧
    (∀ w : World, readW w = .ok [] →
      list_expenses_op w = (w, .message "No expenses found")) := by
  refine ⟨?_, ?_, ?_, ?_, ?_⟩
  · intro w msg d a i h
    refine ⟨?_, ?_, ?_⟩
    · simp [add_expense_op, h]
    · simp [delete_expense_op, h]
    · simp [list_expenses_op, h]
  · intro w es d a h hw
    simp [add_expense_op, h, writeW, hw]
  · intro w es i h hw hmem
    have hne : (delete_core i es).length ≠ es.length :=
      Nat.ne_of_lt (delete_core_length_lt i es hmem)
    simp [delete_expense_op, h, hne, writeW, hw]
  · intro w es i h hnm
    have hk : delete_core i es = es := delete_core_of_not_mem i es hnm
    simp [delete_expense_op, h, hk]
  · intro w h
    simp [list_expenses_op, h]

/-- C8 witness: concrete instances — a missing file makes add panic, a
failing write makes delete panic, and the absent-id and empty-store
cases are ordinary messages with the world unchanged. -/
theorem C8_error_witness :
    add_expense_op "d" (.finite 1) { file := none, wErr := false } =
      ({ file := none, wErr := false },
       .panicked ("Failed to read from datastore: " ++ "os error 2")) ∧
    delete_expense_op 1
      { file := some (write_expenses [⟨1, "a", .finite 1⟩]), wErr := true } =
      ({ file := some (write_expenses [⟨1, "a", .finite 1⟩]), wErr := true },
       .panicked ("Failed to write to datastore: " ++ "os error")) ∧
    delete_expense_op 5 { file := some (.arr []), wErr := true } =
      ({ file := some (.arr []), wErr := true },
       .message ("No expense found with ID: " ++ toString 5)) ∧
    list_expenses_op { file := some (.arr []), wErr := true } =
      ({ file := some (.arr []), wErr := true },
       .message "No expenses found") :=
  ⟨(C8_error_propagation.1 _ "os error 2" "d" (.finite 1) 1 (by rfl)).1,
   C8_error_propagation.2.2.1 _ [⟨1, "a", .finite 1⟩] 1 (by rfl) rfl (by decide),
   C8_error_propagation.2.2.2.1 _ [] 5 (by rfl) (by decide),
   C8_error_propagation.2.2.2.2 _ (by rfl)⟩

/-- C9: ids are u32 and the next-id computation is `max + 1` in u32
arithmetic: below `2^32 - 1` it is exact and fresh, while a store
containing id `2^32 - 1` makes the increment wrap to `0`. -/
theorem C9_u32_overflow (es : List Expense)
    (hval : ∀ e ∈ es, e.id < 2 ^ 32) :
    (maxId es + 1 < 2 ^ 32 →
      nextId es = maxId es + 1 ∧ ∀ e ∈ es, e.id < nextId es) ∧
    ((∃ e ∈ es, e.id = 2 ^ 32 - 1) → nextId es = 0) := by
  constructor
  · intro h
    exact ⟨nextId_eq es h, lt_nextId es h⟩
  · rintro ⟨e, he, hid⟩
    have h1 : maxId es ≤ 2 ^ 32 - 1 :=
      maxId_le es _ fun x hx => Nat.le_sub_one_of_lt (hval x hx)
    have h2 : 2 ^ 32 - 1 ≤ maxId es := hid ▸ le_maxId es e he
    have hm : maxId es = 2 ^ 32 - 1 := le_antisymm h1 h2
    unfold nextId
    rw [hm]
    norm_num

/-- C9 witness: concrete instances of the exact case and the wrapping
case. -/
theorem C9_u32_witness :
    (nextId [⟨2, "b", .finite 1⟩] = 3 ∧
      ∀ e ∈ ([⟨2, "b", .finite 1⟩] : List Expense),
        e.id < nextId [⟨2, "b", .finite 1⟩]) ∧
    nextId [⟨4294967295, "x", .finite 1⟩] = 0 := by
  constructor
  · have h := (C9_u32_overflow [⟨2, "b", .finite 1⟩] (by decide)).1 (by decide)
    exact ⟨h.1, h.2⟩
  · exact (C9_u32_overflow [⟨4294967295, "x", .finite 1⟩] (by decide)).2
      ⟨⟨4294967295, "x", .finite 1⟩, by decide, by decide⟩

/-- C10: the list operation is read-only — it never modifies the
filesystem, whatever the store contains and even when reading fails. -/
theorem C10_list_read_only (w : World) : (list_expenses_op w).1 = w := by
  cases hr : readW w with
  | error e => simp [list_expenses_op, hr]
  | ok es =>
    cases es with
    | nil => simp [list_expenses_op, hr]
    | cons x xs => simp [list_expenses_op, hr]
